import Mathlib

/-!
# JetUserData: per-jet enrichment (trigger matching, JER tables, MC smearing)

Shallow embedding of `src/JetUserData.cc`.

Numbers (`double`/`float` in the source) are elements of a linearly ordered
field `K` with exact arithmetic; `K = ℚ` gives executable instances and
`K = ℝ` the real-number reading of the `<cmath>` calls.  Conversions between
`double` and `float` (the locals `float dR` and `float smearFactor`, the arguments of
`addUserFloat`) are the identity in this model, and so is the conversion of a container
position to `int`.

Code called by the producer and declared outside the repository (`<cmath>`, the
`LorentzVector` class, the framework's handles, event, trigger and calibration products)
enters either as a parameter or as a small record of what the producer reads from it.
-/

namespace JetUserData

/-! ## Resolution tables (`getResolutionRatio`, `getJERup`, `getJERdown`) -/

section Tables

variable {K : Type} [LinearOrderedField K]

/-- Source lines 259-271: nominal JER scale factor as a step function of `fabs(eta)`. -/
def getResolutionRatio (eta : K) : K :=
  let eta := |eta|
  if eta ≥ 0.0 ∧ eta < 0.8 then 1.061
  else if eta ≥ 0.8 ∧ eta < 1.3 then 1.088
  else if eta ≥ 1.3 ∧ eta < 1.9 then 1.106
  else if eta ≥ 1.9 ∧ eta < 2.5 then 1.126
  else if eta ≥ 2.5 ∧ eta < 3.0 then 1.343
  else if eta ≥ 3.0 ∧ eta < 3.2 then 1.303
  else if eta ≥ 3.2 ∧ eta < 5.0 then 1.320
  else -1

/-- Source lines 273-285: upward JER variant. -/
def getJERup (eta : K) : K :=
  let eta := |eta|
  if eta ≥ 0.0 ∧ eta < 0.8 then 1.084
  else if eta ≥ 0.8 ∧ eta < 1.3 then 1.117
  else if eta ≥ 1.3 ∧ eta < 1.9 then 1.136
  else if eta ≥ 1.9 ∧ eta < 2.5 then 1.220
  else if eta ≥ 2.5 ∧ eta < 3.0 then 1.466
  else if eta ≥ 3.0 ∧ eta < 3.2 then 1.414
  else if eta ≥ 3.2 ∧ eta < 5.0 then 1.606
  else -1

/-- Source lines 287-299: downward JER variant. -/
def getJERdown (eta : K) : K :=
  let eta := |eta|
  if eta ≥ 0.0 ∧ eta < 0.8 then 1.038
  else if eta ≥ 0.8 ∧ eta < 1.3 then 1.059
  else if eta ≥ 1.3 ∧ eta < 1.9 then 1.076
  else if eta ≥ 1.9 ∧ eta < 2.5 then 1.032
  else if eta ≥ 2.5 ∧ eta < 3.0 then 1.220
  else if eta ≥ 3.0 ∧ eta < 3.2 then 1.192
  else if eta ≥ 3.2 ∧ eta < 5.0 then 1.034
  else -1

/-- The three table queries at one pseudorapidity, in the order nominal, up, down. -/
def lookup (eta : K) : K × K × K :=
  (getResolutionRatio eta, getJERup eta, getJERdown eta)

/-- One row of the table of section 4.2 of the specification. -/
structure ResolutionEntry (K : Type) where
  etaLow : K
  etaHigh : K
  nominal : K
  upVariant : K
  downVariant : K

/-- The table of section 4.2 of the specification, written from the specification's
words, to be compared with the three source functions. -/
def specTable : List (ResolutionEntry K) :=
  [ ⟨0.0, 0.8, 1.061, 1.084, 1.038⟩,
    ⟨0.8, 1.3, 1.088, 1.117, 1.059⟩,
    ⟨1.3, 1.9, 1.106, 1.136, 1.076⟩,
    ⟨1.9, 2.5, 1.126, 1.220, 1.032⟩,
    ⟨2.5, 3.0, 1.343, 1.466, 1.220⟩,
    ⟨3.0, 3.2, 1.303, 1.414, 1.192⟩,
    ⟨3.2, 5.0, 1.320, 1.606, 1.034⟩ ]

/-- A row applies to `eta` when `|eta|` lies in its half-open bin. -/
def ResolutionEntry.covers (r : ResolutionEntry K) (eta : K) : Prop :=
  r.etaLow ≤ |eta| ∧ |eta| < r.etaHigh

/-- The if-chain shared by the three table functions, with the returned constants abstracted. -/
def binChain (a v1 v2 v3 v4 v5 v6 v7 v8 : K) : K :=
  if a ≥ 0.0 ∧ a < 0.8 then v1
  else if a ≥ 0.8 ∧ a < 1.3 then v2
  else if a ≥ 1.3 ∧ a < 1.9 then v3
  else if a ≥ 1.9 ∧ a < 2.5 then v4
  else if a ≥ 2.5 ∧ a < 3.0 then v5
  else if a ≥ 3.0 ∧ a < 3.2 then v6
  else if a ≥ 3.2 ∧ a < 5.0 then v7
  else v8

end Tables

/-! ## Data model -/

section Model

variable {K : Type} [LinearOrderedField K]

/-- A `reco::Candidate::LorentzVector` in Cartesian coordinates. -/
structure LorentzVector (K : Type) where
  px : K
  py : K
  pz : K
  e : K
deriving DecidableEq

namespace LorentzVector

/-- Component-wise `operator+`. -/
def add (a b : LorentzVector K) : LorentzVector K :=
  ⟨a.px + b.px, a.py + b.py, a.pz + b.pz, a.e + b.e⟩

/-- Component-wise `operator-`. -/
def sub (a b : LorentzVector K) : LorentzVector K :=
  ⟨a.px - b.px, a.py - b.py, a.pz - b.pz, a.e - b.e⟩

/-- The scaling `operator*=`: every coordinate is multiplied by the scalar. -/
def scale (a : LorentzVector K) (c : K) : LorentzVector K :=
  ⟨a.px * c, a.py * c, a.pz * c, a.e * c⟩

end LorentzVector

/-- The accessors of a `trigger::TriggerObject` read by the producer. -/
structure TriggerObject (K : Type) where
  eta : K
  phi : K
  pt : K
  energy : K
deriving DecidableEq

/-- The accessors of a `pat::Jet` read by the producer: `eta()`, `phi()`, `pt()`,
`energy()`, `p4()`, `genJet()` (its four-momentum, absent for a null pointer) and the
keys of `daughterPtrVector()`. -/
structure Jet (K : Type) where
  eta : K
  phi : K
  pt : K
  energy : K
  p4 : LorentzVector K
  genJet : Option (LorentzVector K)
  daughterKeys : List Nat
deriving DecidableEq

/-- The `<cmath>` functions called by the matcher; they are not part of the repository. -/
structure CMath (K : Type) where
  sqrt : K → K
  acos : K → K
  cos : K → K

/-- The parts of the `LorentzVector` class used by `produce` that are not part of the
repository: the value of a default-constructed vector and the accessors `eta()`,
`phi()` and `pt()`. -/
structure P4Lib (K : Type) where
  p4Default : LorentzVector K
  p4Eta : LorentzVector K → K
  p4Phi : LorentzVector K → K
  p4Pt : LorentzVector K → K

/-- The user data attached to one output jet (source lines 201-232). -/
structure AnnotatedJet (K : Type) where
  jet : Jet K
  HLTjetEta : K
  HLTjetPhi : K
  HLTjetPt : K
  HLTjetE : K
  HLTjetDeltaR : K
  SmearedPEta : K
  SmearedPhi : K
  SmearedPt : K
  SmearedE : K
  JER : K
  JERup : K
  JERdown : K
  jecUncertainty : K
  pfKeys : List Nat

/-! ## Trigger matching (`isMatchedWithTrigger`) -/

/-- Source line 247: the distance between trigger object `t` and jet `p`. -/
def matchDistance (X : CMath K) (t : TriggerObject K) (p : Jet K) : K :=
  X.sqrt ((t.eta - p.eta) ^ 2 + (X.acos (X.cos (t.phi - p.phi))) ^ 2)

/-- Source lines 246-254: the loop of `isMatchedWithTrigger`, from position `i` on, over
the objects not yet visited.  The result is the returned flag and the final values of the
reference parameters `index` and `deltaR`. -/
def isMatchedWithTriggerFrom (X : CMath K) (p : Jet K) (deltaRmax : K) :
    List (TriggerObject K) → Nat → Int → K → Bool × Int × K
  | [], _, index, deltaR => (false, index, deltaR)
  | t :: rest, i, index, deltaR =>
    let dR := matchDistance X t p
    if dR < deltaRmax then (true, (i : Int), dR)
    else isMatchedWithTriggerFrom X p deltaRmax rest (i + 1) index deltaR

/-- Source lines 243-255: `isMatchedWithTrigger`. -/
def isMatchedWithTrigger (X : CMath K) (p : Jet K) (triggerObjects : List (TriggerObject K))
    (index : Int) (deltaR : K) (deltaRmax : K) : Bool × Int × K :=
  isMatchedWithTriggerFrom X p deltaRmax triggerObjects 0 index deltaR

/-! ## The per-jet loop body of `produce` -/

/-- The locals of the trigger-matched block (source lines 174-180). -/
structure TriggerMatch (K : Type) where
  isMatched2trigger : Bool
  idx : Int
  deltaR : K
  hltEta : K
  hltPhi : K
  hltPt : K
  hltE : K

/-- The expression `JetLegObjects[0]`.  It is evaluated only when the matcher returned
true, and then the collection is not empty; the value given for the empty collection is
never read. -/
def legZero (JetLegObjects : List (TriggerObject K)) : TriggerObject K :=
  JetLegObjects.headD ⟨0, 0, 0, 0⟩

/-- Source lines 174-180: the trigger-matched block. -/
def triggerMatched (X : CMath K) (jet : Jet K) (JetLegObjects : List (TriggerObject K))
    (hlt2reco_deltaRmax : K) : TriggerMatch K :=
  let idx : Int := -1
  let deltaR : K := -1
  let r := isMatchedWithTrigger X jet JetLegObjects idx deltaR hlt2reco_deltaRmax
  let isMatched2trigger := r.1
  { isMatched2trigger := isMatched2trigger
    idx := r.2.1
    deltaR := r.2.2
    hltEta := if isMatched2trigger then (legZero JetLegObjects).eta else -999
    hltPhi := if isMatched2trigger then (legZero JetLegObjects).phi else -999
    hltPt := if isMatched2trigger then (legZero JetLegObjects).pt else -999
    hltE := if isMatched2trigger then (legZero JetLegObjects).energy else -999 }

/-- Source lines 189-191: subtract the true four-momentum, scale, add it back. -/
def applySmearFactor (smearFactor : K) (p4 genP4 : LorentzVector K) : LorentzVector K :=
  let smearedP4 := p4.sub genP4
  let smearedP4 := smearedP4.scale smearFactor
  smearedP4.add genP4

/-- Source lines 184-195: the SMEARING block; the value of `smearedP4` after it, for the
value `p4Default` it has when declared. -/
def smearedP4 (p4Default : LorentzVector K) (isMC : Bool) (jet : Jet K) : LorentzVector K :=
  let smearedP4 := p4Default
  if isMC then
    match jet.genJet with
    | some genP4 =>
      let smearFactor := getResolutionRatio jet.eta
      applySmearFactor smearFactor jet.p4 genP4
    | none => smearedP4
  else jet.p4

/-- Source lines 170-232: the body of the loop over jets. -/
def enrichJet (X : CMath K) (L : P4Lib K) (jecUnc : K → K → K) (isMC : Bool)
    (JetLegObjects : List (TriggerObject K)) (hlt2reco_deltaRmax : K) (jet : Jet K) :
    AnnotatedJet K :=
  let m := triggerMatched X jet JetLegObjects hlt2reco_deltaRmax
  let sp4 := smearedP4 L.p4Default isMC jet
  let JER := getResolutionRatio jet.eta
  let JERup := getJERup jet.eta
  let JERdown := getJERdown jet.eta
  { jet := jet
    HLTjetEta := m.hltEta
    HLTjetPhi := m.hltPhi
    HLTjetPt := m.hltPt
    HLTjetE := m.hltE
    HLTjetDeltaR := m.deltaR
    SmearedPEta := L.p4Eta sp4
    SmearedPhi := L.p4Phi sp4
    SmearedPt := L.p4Pt sp4
    SmearedE := sp4.e
    JER := JER
    JERup := JERup
    JERdown := JERdown
    jecUncertainty := jecUnc jet.eta jet.pt
    pfKeys := jet.daughterKeys }

/-! ## `produce` -/

/-- Modelled from the spec: `edm::Handle` is declared outside the repository.  A handle
either refers to a product or does not; a default-constructed handle refers to none and
is not valid, and `getByLabel` makes it refer to the stored product, if there is one. -/
structure Handle (α : Type) where
  product : Option α

/-- A default-constructed handle. -/
def Handle.fresh {α : Type} : Handle α := ⟨none⟩

/-- The test `isValid()`. -/
def Handle.isValid {α : Type} (h : Handle α) : Bool := h.product.isSome

/-- The call `iEvent.getByLabel(label, handle)` for the product stored under the label. -/
def getByLabel {α : Type} (stored : Option α) : Handle α := ⟨stored⟩

/-- `TString(s).Contains(pat)`: `pat` occurs in `s` as a contiguous substring. -/
def containsStr (s pat : String) : Bool :=
  s.toList.tails.any (fun t => pat.toList.isPrefixOf t)

/-- One filter of the `trigger::TriggerEvent` product: the label of its tag, and its
`filterIds` and `filterKeys`. -/
structure TriggerFilter where
  label : String
  ids : List Int
  keys : List Nat

/-- The `trigger::TriggerEvent` product. -/
structure TriggerEvent (K : Type) where
  filters : List TriggerFilter
  objects : List (TriggerObject K)

/-- The call `sizeFilters()`. -/
def TriggerEvent.sizeFilters (te : TriggerEvent K) : Nat := te.filters.length

/-- The call `filterIndex(InputTag(label,"","HLT"))`: the position of the filter, or
`sizeFilters()` when there is none. -/
def TriggerEvent.filterIndex (te : TriggerEvent K) (label : String) : Nat :=
  te.filters.findIdx (fun f => f.label == label)

/-- The `edm::TriggerResults` product: for each path, the index of the last module run. -/
structure TriggerResults where
  index : List Nat

/-- What `hltConfig` exposes after `init`: the menu name, the path names and the module
labels of each path. -/
structure HLTConfigProvider where
  tableName : String
  triggerNames : List String
  moduleLabels : List (List String)

/-- The call `triggerIndex(name)`: the position of the path, or the number of paths. -/
def HLTConfigProvider.triggerIndex (c : HLTConfigProvider) (name : String) : Nat :=
  c.triggerNames.findIdx (fun n => n == name)

/-- The configuration parameters read by the constructor (source lines 76-86) that
influence the computation. -/
structure Config (K : Type) where
  hltJetFilterLabel : String
  hltPath : String
  hlt2reco_deltaRmax : K

/-- The event as seen by `produce`: `isRealData()` and the products stored under the
configured labels (absent when the event has none). -/
structure Event (K : Type) where
  isRealData : Bool
  jets : Option (List (Jet K))
  triggerResults : Option TriggerResults
  triggerSummary : Option (TriggerEvent K)

/-- The event setup as seen by `produce`: the result of `hltConfig.init` (its return
value, the `changedConfig` flag, the configuration) and the uncertainty surface of the
named correction set as a function of eta and pt, absent when the record has none. -/
structure EventSetup (K : Type) where
  hltInitOk : Bool
  changedConfig : Bool
  hltConfig : HLTConfigProvider
  jecUncertainty : Option (K → K → K)

/-- A message sent to the message logger. -/
inductive LogRecord where
  | error (category : String) (message : String)
  | info (category : String) (message : String)
deriving DecidableEq

/-- How a call of `produce` ends: the messages logged, the value of the member
`triggerBit` afterwards, the collection given to `iEvent.put` (none when `put` is not
reached) and whether the call ended with an exception instead of returning. -/
structure Outcome (K : Type) where
  log : List LogRecord
  triggerBit : Int
  put : Option (List (AnnotatedJet K))
  threw : Bool

/-- Source lines 109-111: the loop over the trigger names, from position `j` on; the state
is the pair of `triggerBit` and `pathFound`. -/
def scanTriggerNames (hltPath : String) : List String → Nat → Int × Bool → Int × Bool
  | [], _, st => st
  | n :: rest, j, st =>
    scanTriggerNames hltPath rest (j + 1) (if containsStr n hltPath then ((j : Int), true) else st)

/-- Source lines 146-156: the objects of one filter are appended to `JetLegObjects`.
A failed assertion or an access outside a container gives `none`. -/
def pushFilterObjects (te : TriggerEvent K) (filterIndex : Nat)
    (JetLegObjects : List (TriggerObject K)) : Option (List (TriggerObject K)) := do
  let f ← te.filters[filterIndex]?
  let nI := f.ids.length
  let nK := f.keys.length
  if nI ≠ nK then none
  else
    let n := max nI nK
    (List.range n).foldlM
      (fun acc i => do
        let key ← f.keys[i]?
        let TO ← te.objects[key]?
        pure (acc ++ [TO]))
      JetLegObjects

/-- Source lines 133-160: the body guarded by `pathFound`.  A failed assertion or an
access outside a container gives `none`. -/
def collectJetLegObjects (cfg : Config K) (hltConfig : HLTConfigProvider)
    (triggerResults : Handle TriggerResults) (triggerSummary : Handle (TriggerEvent K))
    (pathFound : Bool) : Option (List (TriggerObject K)) := do
  let te ← triggerSummary.product
  if pathFound then
    let triggerIndex := hltConfig.triggerIndex cfg.hltPath
    let moduleLabels ← hltConfig.moduleLabels[triggerIndex]?
    let tr ← triggerResults.product
    let moduleIndex ← tr.index[triggerIndex]?
    (List.range (moduleIndex + 1)).foldlM
      (fun acc j => do
        let moduleLabel ← moduleLabels[j]?
        let filterIndex := te.filterIndex moduleLabel
        if filterIndex < te.sizeFilters then
          if containsStr moduleLabel cfg.hltJetFilterLabel then
            pushFilterObjects te filterIndex acc
          else pure acc
        else pure acc)
      []
  else pure []

/-- Source lines 124-161: the TRIGGER MATCHING block; the value of `JetLegObjects` after
it, `none` when the block fails.  The handle `triggerSummary` is tested right after its
declaration; `getByLabel` is called inside the guarded block. -/
def jetLegObjects (cfg : Config K) (ev : Event K) (hltConfig : HLTConfigProvider)
    (triggerResults : Handle TriggerResults) (pathFound : Bool) :
    Option (List (TriggerObject K)) :=
  let JetLegObjects : List (TriggerObject K) := []
  let triggerSummary : Handle (TriggerEvent K) := Handle.fresh
  if triggerSummary.isValid then
    let triggerSummary : Handle (TriggerEvent K) := getByLabel ev.triggerSummary
    collectJetLegObjects cfg hltConfig triggerResults triggerSummary pathFound
  else some JetLegObjects

/-- Source lines 89-240: `produce`, for the member `triggerBit` as left by the previous
call.  Dereferencing a handle without product and a missing calibration record end the
call with an exception. -/
def produce (X : CMath K) (L : P4Lib K) (cfg : Config K) (triggerBit : Int) (ev : Event K)
    (es : EventSetup K) : Outcome K :=
  let isMC := !ev.isRealData
  let jetHandle : Handle (List (Jet K)) := getByLabel ev.jets
  match jetHandle.product with
  | none => { log := [], triggerBit := triggerBit, put := none, threw := true }
  | some jetColl =>
    if !es.hltInitOk then
      { log := [LogRecord.error "HLTConfigProvider" "Initialization of HLTConfigProvider failed!!"]
        triggerBit := triggerBit, put := none, threw := false }
    else
      let st : Int × Bool :=
        if es.changedConfig then scanTriggerNames cfg.hltPath es.hltConfig.triggerNames 0 (-1, false)
        else (triggerBit, false)
      let log : List LogRecord :=
        if es.changedConfig then
          [LogRecord.info "HLTMenu" ("the current menu is " ++ es.hltConfig.tableName)] ++
            (if st.1 = -1 then [LogRecord.error "NoHLTPath" "HLT path not found"] else [])
        else []
      let triggerBit := st.1
      let pathFound := st.2
      let triggerResults : Handle TriggerResults := getByLabel ev.triggerResults
      match jetLegObjects cfg ev es.hltConfig triggerResults pathFound with
      | none => { log := log, triggerBit := triggerBit, put := none, threw := true }
      | some JetLegObjects =>
        match es.jecUncertainty with
        | none => { log := log, triggerBit := triggerBit, put := none, threw := true }
        | some jecUnc =>
          { log := log, triggerBit := triggerBit
            put := some (jetColl.map
              (enrichJet X L jecUnc isMC JetLegObjects cfg.hlt2reco_deltaRmax))
            threw := false }

end Model

/-! ## The real-number reading of the library functions -/

/-- The `<cmath>` functions over the reals. -/
noncomputable def realCMath : CMath ℝ :=
  { sqrt := Real.sqrt, acos := Real.arccos, cos := Real.cos }

/-- The `LorentzVector` accessors over the reals for Cartesian coordinates: transverse
momentum, azimuth and pseudorapidity of the spatial part; a default-constructed vector
has all coordinates zero.  Used to instantiate statements at concrete jets. -/
noncomputable def realP4Lib : P4Lib ℝ :=
  { p4Default := ⟨0, 0, 0, 0⟩
    p4Eta := fun v => Real.arsinh (v.pz / Real.sqrt (v.px ^ 2 + v.py ^ 2))
    p4Phi := fun v => Complex.arg ⟨v.px, v.py⟩
    p4Pt := fun v => Real.sqrt (v.px ^ 2 + v.py ^ 2) }

/-! ## Concrete inputs -/

/-- A jet at eta = 0, phi = 0 with pt = 100 and no true jet. -/
noncomputable def centralJet : Jet ℝ :=
  { eta := 0, phi := 0, pt := 100, energy := 100, p4 := ⟨100, 0, 0, 100⟩, genJet := none
    daughterKeys := [3, 7] }

/-- A jet at eta = 2.0, phi = 0 with pt = 10 and no true jet. -/
noncomputable def forwardJet : Jet ℝ :=
  { eta := 2.0, phi := 0, pt := 10, energy := 10 * Real.cosh 2
    p4 := ⟨10, 0, 10 * Real.sinh 2, 10 * Real.cosh 2⟩, genJet := none, daughterKeys := [] }

/-- Three trigger objects seen from `centralJet`: at distance 3, at distance 0.1 and at
distance 0. -/
noncomputable def threeLegs : List (TriggerObject ℝ) :=
  [⟨3, 0, 40, 400⟩, ⟨0.1, 0, 90, 90.5⟩, ⟨0, 0, 100, 100⟩]

/-- Two trigger objects seen from `centralJet`: at distance 3 and at distance 0. -/
noncomputable def twoLegs : List (TriggerObject ℝ) :=
  [⟨3, 0, 40, 400⟩, ⟨0, 0, 100, 100⟩]

/-- A simulated jet with measured four-momentum (3, 0, 0, 5) and no true jet. -/
def unmatchedJetA : Jet ℚ :=
  { eta := 0, phi := 0, pt := 3, energy := 5, p4 := ⟨3, 0, 0, 5⟩, genJet := none
    daughterKeys := [] }

/-- A simulated jet with measured four-momentum (0, 4, 0, 6) and no true jet. -/
def unmatchedJetB : Jet ℚ :=
  { eta := 0, phi := 1, pt := 4, energy := 6, p4 := ⟨0, 4, 0, 6⟩, genJet := none
    daughterKeys := [] }

/-- A simulated jet at eta = 0 with measured four-momentum (2, 0, 0, 2) and true
four-momentum (1, 0, 0, 1). -/
def matchedJet : Jet ℚ :=
  { eta := 0, phi := 0, pt := 2, energy := 2, p4 := ⟨2, 0, 0, 2⟩, genJet := some ⟨1, 0, 0, 1⟩
    daughterKeys := [] }

/-- A configuration asking for the path `HLT_PFJet260` and the filter `hltSinglePFJet260`,
with maximum matching distance 0.2. -/
noncomputable def jetConfig : Config ℝ :=
  { hltJetFilterLabel := "hltSinglePFJet260", hltPath := "HLT_PFJet260"
    hlt2reco_deltaRmax := 0.2 }

/-- A menu without any path whose name contains `HLT_PFJet260`. -/
def muonMenu : HLTConfigProvider :=
  { tableName := "/online/muon/v1"
    triggerNames := ["HLT_Mu40_v1", "HLT_Ele27_v2"]
    moduleLabels := [["hltL1sMu16", "hltL3fMu40"], ["hltL1sEG20", "hltEle27Filter"]] }

/-- A menu whose only path is `HLT_PFJet260`, with two modules. -/
def jetMenu : HLTConfigProvider :=
  { tableName := "/online/jet/v1"
    triggerNames := ["HLT_PFJet260"]
    moduleLabels := [["hltL1sSingleJet128", "hltSinglePFJet260"]] }

/-- A setup whose trigger configuration initialises, has changed, and is `muonMenu`; the
uncertainty surface is constant. -/
noncomputable def muonSetup : EventSetup ℝ :=
  { hltInitOk := true, changedConfig := true, hltConfig := muonMenu
    jecUncertainty := some (fun _ _ => 0.03) }

/-- A setup whose trigger configuration initialises, has changed, and is `jetMenu`; the
uncertainty surface is constant. -/
noncomputable def jetSetup : EventSetup ℝ :=
  { hltInitOk := true, changedConfig := true, hltConfig := jetMenu
    jecUncertainty := some (fun _ _ => 0.03) }

/-- A data event with the single jet `centralJet`; the path ran both of its modules, and
the trigger summary stores, for the filter `hltSinglePFJet260`, one object at eta = 0,
phi = 0, that is at distance 0 from the jet. -/
noncomputable def jetEvent : Event ℝ :=
  { isRealData := true
    jets := some [centralJet]
    triggerResults := some ⟨[1]⟩
    triggerSummary := some
      { filters := [⟨"hltSinglePFJet260", [85], [0]⟩]
        objects := [⟨0, 0, 100, 100⟩] } }

/-- A setup like `muonSetup` whose calibration record lacks the named correction set. -/
noncomputable def muonSetupNoJec : EventSetup ℝ :=
  { hltInitOk := true, changedConfig := true, hltConfig := muonMenu, jecUncertainty := none }

section TableProofs

variable {K : Type} [LinearOrderedField K]

theorem not_bin_of_le {a lo hi b : K} (hb : b ≤ a) (h : hi ≤ b) : ¬ (a ≥ lo ∧ a < hi) :=
  fun c => absurd (lt_of_lt_of_le c.2 (h.trans hb)) (lt_irrefl _)

theorem binChain_eval (a v1 v2 v3 v4 v5 v6 v7 v8 : K) :
    (0 ≤ a ∧ a < 0.8 → binChain a v1 v2 v3 v4 v5 v6 v7 v8 = v1) ∧
    (0.8 ≤ a ∧ a < 1.3 → binChain a v1 v2 v3 v4 v5 v6 v7 v8 = v2) ∧
    (1.3 ≤ a ∧ a < 1.9 → binChain a v1 v2 v3 v4 v5 v6 v7 v8 = v3) ∧
    (1.9 ≤ a ∧ a < 2.5 → binChain a v1 v2 v3 v4 v5 v6 v7 v8 = v4) ∧
    (2.5 ≤ a ∧ a < 3.0 → binChain a v1 v2 v3 v4 v5 v6 v7 v8 = v5) ∧
    (3.0 ≤ a ∧ a < 3.2 → binChain a v1 v2 v3 v4 v5 v6 v7 v8 = v6) ∧
    (3.2 ≤ a ∧ a < 5.0 → binChain a v1 v2 v3 v4 v5 v6 v7 v8 = v7) ∧
    (5.0 ≤ a → binChain a v1 v2 v3 v4 v5 v6 v7 v8 = v8) := by
  unfold binChain
  refine ⟨?_, ?_, ?_, ?_, ?_, ?_, ?_, ?_⟩
  · intro h
    have h0 : a ≥ 0.0 ∧ a < 0.8 := ⟨by norm_num; exact h.1, h.2⟩
    rw [if_pos h0]
  · intro h
    rw [if_neg (not_bin_of_le h.1 (by norm_num)), if_pos h]
  · intro h
    rw [if_neg (not_bin_of_le h.1 (by norm_num)), if_neg (not_bin_of_le h.1 (by norm_num)), if_pos h]
  · intro h
    rw [if_neg (not_bin_of_le h.1 (by norm_num)), if_neg (not_bin_of_le h.1 (by norm_num)),
      if_neg (not_bin_of_le h.1 (by norm_num)), if_pos h]
  · intro h
    rw [if_neg (not_bin_of_le h.1 (by norm_num)), if_neg (not_bin_of_le h.1 (by norm_num)),
      if_neg (not_bin_of_le h.1 (by norm_num)), if_neg (not_bin_of_le h.1 (by norm_num)), if_pos h]
  · intro h
    rw [if_neg (not_bin_of_le h.1 (by norm_num)), if_neg (not_bin_of_le h.1 (by norm_num)),
      if_neg (not_bin_of_le h.1 (by norm_num)), if_neg (not_bin_of_le h.1 (by norm_num)),
      if_neg (not_bin_of_le h.1 (by norm_num)), if_pos h]
  · intro h
    rw [if_neg (not_bin_of_le h.1 (by norm_num)), if_neg (not_bin_of_le h.1 (by norm_num)),
      if_neg (not_bin_of_le h.1 (by norm_num)), if_neg (not_bin_of_le h.1 (by norm_num)),
      if_neg (not_bin_of_le h.1 (by norm_num)), if_neg (not_bin_of_le h.1 (by norm_num)), if_pos h]
  · intro h
    rw [if_neg (not_bin_of_le h (by norm_num)), if_neg (not_bin_of_le h (by norm_num)),
      if_neg (not_bin_of_le h (by norm_num)), if_neg (not_bin_of_le h (by norm_num)),
      if_neg (not_bin_of_le h (by norm_num)), if_neg (not_bin_of_le h (by norm_num)),
      if_neg (not_bin_of_le h (by norm_num))]

theorem getResolutionRatio_eq (eta : K) :
    getResolutionRatio eta = binChain |eta| 1.061 1.088 1.106 1.126 1.343 1.303 1.320 (-1) := rfl

theorem getJERup_eq (eta : K) :
    getJERup eta = binChain |eta| 1.084 1.117 1.136 1.220 1.466 1.414 1.606 (-1) := rfl

theorem getJERdown_eq (eta : K) :
    getJERdown eta = binChain |eta| 1.038 1.059 1.076 1.032 1.220 1.192 1.034 (-1) := rfl

theorem lookup_eq (eta : K) :
    lookup eta =
      (binChain |eta| 1.061 1.088 1.106 1.126 1.343 1.303 1.320 (-1),
       binChain |eta| 1.084 1.117 1.136 1.220 1.466 1.414 1.606 (-1),
       binChain |eta| 1.038 1.059 1.076 1.032 1.220 1.192 1.034 (-1)) := rfl

theorem lookup_of_bin (eta : K) :
    (0 ≤ |eta| ∧ |eta| < 0.8 → lookup eta = (1.061, 1.084, 1.038)) ∧
    (0.8 ≤ |eta| ∧ |eta| < 1.3 → lookup eta = (1.088, 1.117, 1.059)) ∧
    (1.3 ≤ |eta| ∧ |eta| < 1.9 → lookup eta = (1.106, 1.136, 1.076)) ∧
    (1.9 ≤ |eta| ∧ |eta| < 2.5 → lookup eta = (1.126, 1.220, 1.032)) ∧
    (2.5 ≤ |eta| ∧ |eta| < 3.0 → lookup eta = (1.343, 1.466, 1.220)) ∧
    (3.0 ≤ |eta| ∧ |eta| < 3.2 → lookup eta = (1.303, 1.414, 1.192)) ∧
    (3.2 ≤ |eta| ∧ |eta| < 5.0 → lookup eta = (1.320, 1.606, 1.034)) ∧
    (5.0 ≤ |eta| → lookup eta = (-1, -1, -1)) := by
  rw [lookup_eq]
  refine ⟨?_, ?_, ?_, ?_, ?_, ?_, ?_, ?_⟩ <;> intro h
  · rw [(binChain_eval _ _ _ _ _ _ _ _ _).1 h, (binChain_eval _ _ _ _ _ _ _ _ _).1 h,
      (binChain_eval _ _ _ _ _ _ _ _ _).1 h]
  · rw [(binChain_eval _ _ _ _ _ _ _ _ _).2.1 h, (binChain_eval _ _ _ _ _ _ _ _ _).2.1 h,
      (binChain_eval _ _ _ _ _ _ _ _ _).2.1 h]
  · rw [(binChain_eval _ _ _ _ _ _ _ _ _).2.2.1 h, (binChain_eval _ _ _ _ _ _ _ _ _).2.2.1 h,
      (binChain_eval _ _ _ _ _ _ _ _ _).2.2.1 h]
  · rw [(binChain_eval _ _ _ _ _ _ _ _ _).2.2.2.1 h, (binChain_eval _ _ _ _ _ _ _ _ _).2.2.2.1 h,
      (binChain_eval _ _ _ _ _ _ _ _ _).2.2.2.1 h]
  · rw [(binChain_eval _ _ _ _ _ _ _ _ _).2.2.2.2.1 h,
      (binChain_eval _ _ _ _ _ _ _ _ _).2.2.2.2.1 h,
      (binChain_eval _ _ _ _ _ _ _ _ _).2.2.2.2.1 h]
  · rw [(binChain_eval _ _ _ _ _ _ _ _ _).2.2.2.2.2.1 h,
      (binChain_eval _ _ _ _ _ _ _ _ _).2.2.2.2.2.1 h,
      (binChain_eval _ _ _ _ _ _ _ _ _).2.2.2.2.2.1 h]
  · rw [(binChain_eval _ _ _ _ _ _ _ _ _).2.2.2.2.2.2.1 h,
      (binChain_eval _ _ _ _ _ _ _ _ _).2.2.2.2.2.2.1 h,
      (binChain_eval _ _ _ _ _ _ _ _ _).2.2.2.2.2.2.1 h]
  · rw [(binChain_eval _ _ _ _ _ _ _ _ _).2.2.2.2.2.2.2 h,
      (binChain_eval _ _ _ _ _ _ _ _ _).2.2.2.2.2.2.2 h,
      (binChain_eval _ _ _ _ _ _ _ _ _).2.2.2.2.2.2.2 h]

theorem mem_specTable (r : ResolutionEntry K) :
    r ∈ (specTable : List (ResolutionEntry K)) ↔
      r = ⟨0.0, 0.8, 1.061, 1.084, 1.038⟩ ∨ r = ⟨0.8, 1.3, 1.088, 1.117, 1.059⟩ ∨
      r = ⟨1.3, 1.9, 1.106, 1.136, 1.076⟩ ∨ r = ⟨1.9, 2.5, 1.126, 1.220, 1.032⟩ ∨
      r = ⟨2.5, 3.0, 1.343, 1.466, 1.220⟩ ∨ r = ⟨3.0, 3.2, 1.303, 1.414, 1.192⟩ ∨
      r = ⟨3.2, 5.0, 1.320, 1.606, 1.034⟩ := by
  simp only [specTable, List.mem_cons, List.mem_singleton, List.not_mem_nil, or_false]

theorem lookup_of_row (eta : K) (r : ResolutionEntry K) (hr : r ∈ specTable)
    (hc : r.covers eta) : lookup eta = (r.nominal, r.upVariant, r.downVariant) := by
  have hb := lookup_of_bin eta
  rw [mem_specTable] at hr
  unfold ResolutionEntry.covers at hc
  rcases hr with rfl | rfl | rfl | rfl | rfl | rfl | rfl
  · exact hb.1 ⟨abs_nonneg eta, hc.2⟩
  · exact hb.2.1 hc
  · exact hb.2.2.1 hc
  · exact hb.2.2.2.1 hc
  · exact hb.2.2.2.2.1 hc
  · exact hb.2.2.2.2.2.1 hc
  · exact hb.2.2.2.2.2.2.1 hc

theorem covers_unique (eta : K) (r s : ResolutionEntry K) (hr : r ∈ specTable)
    (hs : s ∈ specTable) (cr : r.covers eta) (cs : s.covers eta) : r = s := by
  rw [mem_specTable] at hr hs
  unfold ResolutionEntry.covers at cr cs
  rcases hr with rfl | rfl | rfl | rfl | rfl | rfl | rfl <;>
    rcases hs with rfl | rfl | rfl | rfl | rfl | rfl | rfl <;>
    first
    | rfl
    | (exfalso
       obtain ⟨c1, c2⟩ := cr
       obtain ⟨c3, c4⟩ := cs
       norm_num at c1 c2 c3 c4
       linarith)

theorem covers_exists (eta : K) (h : |eta| < 5.0) :
    ∃ r, r ∈ (specTable : List (ResolutionEntry K)) ∧ r.covers eta := by
  have h0 : (0.0 : K) ≤ |eta| := by norm_num
  rcases lt_or_le |eta| 0.8 with h1 | h1
  · exact ⟨⟨0.0, 0.8, 1.061, 1.084, 1.038⟩, by simp [specTable], h0, h1⟩
  rcases lt_or_le |eta| 1.3 with h2 | h2
  · exact ⟨⟨0.8, 1.3, 1.088, 1.117, 1.059⟩, by simp [specTable], h1, h2⟩
  rcases lt_or_le |eta| 1.9 with h3 | h3
  · exact ⟨⟨1.3, 1.9, 1.106, 1.136, 1.076⟩, by simp [specTable], h2, h3⟩
  rcases lt_or_le |eta| 2.5 with h4 | h4
  · exact ⟨⟨1.9, 2.5, 1.126, 1.220, 1.032⟩, by simp [specTable], h3, h4⟩
  rcases lt_or_le |eta| 3.0 with h5 | h5
  · exact ⟨⟨2.5, 3.0, 1.343, 1.466, 1.220⟩, by simp [specTable], h4, h5⟩
  rcases lt_or_le |eta| 3.2 with h6 | h6
  · exact ⟨⟨3.0, 3.2, 1.303, 1.414, 1.192⟩, by simp [specTable], h5, h6⟩
  · exact ⟨⟨3.2, 5.0, 1.320, 1.606, 1.034⟩, by simp [specTable], h6, h⟩

end TableProofs

/-! ## Lemmas on the matcher -/

section MatcherProofs

variable {K : Type} [LinearOrderedField K]

theorem isMatchedWithTriggerFrom_none (X : CMath K) (p : Jet K) (deltaRmax : K)
    (objs : List (TriggerObject K)) (k : Nat) (index : Int) (deltaR : K)
    (h : ∀ t ∈ objs, ¬ matchDistance X t p < deltaRmax) :
    isMatchedWithTriggerFrom X p deltaRmax objs k index deltaR = (false, index, deltaR) := by
  induction objs generalizing k with
  | nil => rfl
  | cons t rest ih =>
    have ht : ¬ matchDistance X t p < deltaRmax := h t (List.mem_cons_self _ _)
    have hrest : ∀ u ∈ rest, ¬ matchDistance X u p < deltaRmax :=
      fun u hu => h u (List.mem_cons_of_mem _ hu)
    simp only [isMatchedWithTriggerFrom, if_neg ht]
    exact ih (k + 1) hrest

theorem isMatchedWithTriggerFrom_split (X : CMath K) (p : Jet K) (deltaRmax : K)
    (pre : List (TriggerObject K)) (t : TriggerObject K) (post : List (TriggerObject K))
    (k : Nat) (index : Int) (deltaR : K)
    (hpre : ∀ u ∈ pre, ¬ matchDistance X u p < deltaRmax)
    (ht : matchDistance X t p < deltaRmax) :
    isMatchedWithTriggerFrom X p deltaRmax (pre ++ t :: post) k index deltaR =
      (true, ((k + pre.length : Nat) : Int), matchDistance X t p) := by
  induction pre generalizing k with
  | nil => simp [isMatchedWithTriggerFrom, ht]
  | cons u rest ih =>
    have hu : ¬ matchDistance X u p < deltaRmax := hpre u (List.mem_cons_self _ _)
    have hrest : ∀ v ∈ rest, ¬ matchDistance X v p < deltaRmax :=
      fun v hv => hpre v (List.mem_cons_of_mem _ hv)
    have hstep : isMatchedWithTriggerFrom X p deltaRmax (u :: rest ++ t :: post) k index deltaR =
        isMatchedWithTriggerFrom X p deltaRmax (rest ++ t :: post) (k + 1) index deltaR := by
      simp only [List.cons_append, isMatchedWithTriggerFrom, if_neg hu]
      rfl
    rw [hstep, ih (k + 1) hrest]
    simp only [List.length_cons]
    congr 2
    omega

theorem exists_first_within (X : CMath K) (p : Jet K) (deltaRmax : K)
    (objs : List (TriggerObject K)) (h : ∃ t ∈ objs, matchDistance X t p < deltaRmax) :
    ∃ pre t post, objs = pre ++ t :: post ∧ matchDistance X t p < deltaRmax ∧
      ∀ u ∈ pre, ¬ matchDistance X u p < deltaRmax := by
  induction objs with
  | nil => obtain ⟨t, ht, _⟩ := h; cases ht
  | cons a rest ih =>
    by_cases ha : matchDistance X a p < deltaRmax
    · exact ⟨[], a, rest, rfl, ha, fun u hu => by cases hu⟩
    · obtain ⟨t, ht, hlt⟩ := h
      have hmem : t ∈ rest := by
        rcases List.mem_cons.mp ht with rfl | h1
        · exact absurd hlt ha
        · exact h1
      obtain ⟨pre, t1, post, he, h1, h2⟩ := ih ⟨t, hmem, hlt⟩
      refine ⟨a :: pre, t1, post, by rw [he]; rfl, h1, ?_⟩
      intro u hu
      rcases List.mem_cons.mp hu with rfl | h3
      · exact ha
      · exact h2 u h3

theorem isMatchedWithTrigger_true_iff (X : CMath K) (p : Jet K)
    (objs : List (TriggerObject K)) (index : Int) (deltaR deltaRmax : K) :
    (isMatchedWithTrigger X p objs index deltaR deltaRmax).1 = true ↔
      ∃ t ∈ objs, matchDistance X t p < deltaRmax := by
  constructor
  · intro h
    by_contra hne
    have hall : ∀ t ∈ objs, ¬ matchDistance X t p < deltaRmax :=
      fun t ht hlt => hne ⟨t, ht, hlt⟩
    rw [isMatchedWithTrigger, isMatchedWithTriggerFrom_none X p deltaRmax objs 0 index deltaR hall]
      at h
    cases h
  · intro h
    obtain ⟨pre, t, post, he, h1, h2⟩ := exists_first_within X p deltaRmax objs h
    rw [isMatchedWithTrigger, he,
      isMatchedWithTriggerFrom_split X p deltaRmax pre t post 0 index deltaR h2 h1]

theorem isMatchedWithTrigger_true_ne_nil (X : CMath K) (p : Jet K)
    (objs : List (TriggerObject K)) (index : Int) (deltaR deltaRmax : K)
    (h : (isMatchedWithTrigger X p objs index deltaR deltaRmax).1 = true) : objs ≠ [] := by
  obtain ⟨t, ht, _⟩ := (isMatchedWithTrigger_true_iff X p objs index deltaR deltaRmax).mp h
  exact List.ne_nil_of_mem ht

end MatcherProofs

/-! ## Lemmas on the azimuthal term over the reals -/

section AzimuthProofs

open Real

theorem arccos_cos_eq_abs (x : ℝ) : ∃ k : ℤ, arccos (cos x) = |x - 2 * π * k| := by
  have hy0 : 0 ≤ arccos (cos x) := arccos_nonneg _
  have hcos : cos x = cos (arccos (cos x)) :=
    (cos_arccos (neg_one_le_cos x) (cos_le_one x)).symm
  obtain ⟨k, hk | hk⟩ := cos_eq_cos_iff.mp hcos
  · refine ⟨-k, ?_⟩
    have h1 : x - 2 * π * ((-k : ℤ) : ℝ) = arccos (cos x) := by
      rw [hk]; push_cast; ring
    rw [h1, abs_of_nonneg hy0]
  · refine ⟨k, ?_⟩
    have h1 : x - 2 * π * (k : ℝ) = -arccos (cos x) := by
      rw [hk]; ring
    rw [h1, abs_neg, abs_of_nonneg hy0]

theorem arccos_cos_le_abs (x : ℝ) (k : ℤ) : arccos (cos x) ≤ |x - 2 * π * k| := by
  have hz : cos |x - 2 * π * k| = cos x := by
    rw [cos_abs]
    have h1 : x - 2 * π * (k : ℝ) = x - (k : ℝ) * (2 * π) := by ring
    rw [h1, cos_sub_int_mul_two_pi]
  by_cases hle : |x - 2 * π * k| ≤ π
  · rw [← hz, arccos_cos (abs_nonneg _) hle]
  · exact le_trans (arccos_le_pi _) (le_of_lt (not_le.mp hle))

theorem arccos_cos_two_pi_sub (x : ℝ) (h1 : π ≤ x) (h2 : x ≤ 2 * π) :
    arccos (cos x) = 2 * π - x := by
  rw [← cos_two_pi_sub x]
  exact arccos_cos (by linarith) (by linarith)

theorem matchDistance_real_eq (t : TriggerObject ℝ) (p : Jet ℝ) :
    matchDistance realCMath t p =
      √((t.eta - p.eta) ^ 2 + (arccos (cos (t.phi - p.phi))) ^ 2) := rfl

theorem matchDistance_same_eta (t : TriggerObject ℝ) (p : Jet ℝ) (h : t.eta = p.eta) :
    matchDistance realCMath t p = arccos (cos (t.phi - p.phi)) := by
  rw [matchDistance_real_eq, h, sub_self]
  simp only [ne_eq, OfNat.ofNat_ne_zero, not_false_eq_true, zero_pow, zero_add]
  exact sqrt_sq (arccos_nonneg _)

theorem matchDistance_same_phi (t : TriggerObject ℝ) (p : Jet ℝ) (h : t.phi = p.phi) :
    matchDistance realCMath t p = |t.eta - p.eta| := by
  rw [matchDistance_real_eq, h, sub_self, cos_zero, arccos_one]
  simp only [ne_eq, OfNat.ofNat_ne_zero, not_false_eq_true, zero_pow, add_zero]
  exact sqrt_sq_eq_abs _

theorem matchDistance_swap (t : TriggerObject ℝ) (p : Jet ℝ) :
    matchDistance realCMath { t with eta := p.eta, phi := p.phi }
      { p with eta := t.eta, phi := t.phi } = matchDistance realCMath t p := by
  simp only [matchDistance_real_eq]
  have h1 : (p.eta - t.eta) ^ 2 = (t.eta - p.eta) ^ 2 := by ring
  have h2 : cos (p.phi - t.phi) = cos (t.phi - p.phi) := by
    rw [← cos_neg (p.phi - t.phi), neg_sub]
  rw [h1, h2]

theorem matchDistance_shift (t : TriggerObject ℝ) (p : Jet ℝ) (k m : ℤ) :
    matchDistance realCMath { t with phi := t.phi + 2 * π * k }
      { p with phi := p.phi + 2 * π * m } = matchDistance realCMath t p := by
  simp only [matchDistance_real_eq]
  have h : t.phi + 2 * π * (k : ℝ) - (p.phi + 2 * π * (m : ℝ)) =
      (t.phi - p.phi) + ((k - m : ℤ) : ℝ) * (2 * π) := by
    push_cast; ring
  rw [h, cos_add_int_mul_two_pi]

end AzimuthProofs

/-! ## Lemmas on `produce` -/

section ProduceProofs

theorem handle_fresh_not_valid {α : Type} : (Handle.fresh : Handle α).isValid = false := rfl

theorem jetLegObjects_eq_nil {K : Type} (cfg : Config K) (ev : Event K) (hltConfig : HLTConfigProvider)
    (triggerResults : Handle TriggerResults) (pathFound : Bool) :
    jetLegObjects cfg ev hltConfig triggerResults pathFound = some [] := by
  simp [jetLegObjects, handle_fresh_not_valid]

variable {K : Type} [LinearOrderedField K]

theorem scanTriggerNames_no_match (hltPath : String) (names : List String) (j : Nat)
    (st : Int × Bool) (h : ∀ n ∈ names, containsStr n hltPath = false) :
    scanTriggerNames hltPath names j st = st := by
  induction names generalizing j with
  | nil => rfl
  | cons n rest ih =>
    have hn : containsStr n hltPath = false := h n (List.mem_cons_self _ _)
    simp only [scanTriggerNames, hn, Bool.false_eq_true, if_false]
    exact ih (j + 1) (fun m hm => h m (List.mem_cons_of_mem _ hm))

theorem enrichJet_nil (X : CMath K) (L : P4Lib K) (jecUnc : K → K → K) (isMC : Bool)
    (deltaRmax : K) (jet : Jet K) :
    (enrichJet X L jecUnc isMC [] deltaRmax jet).HLTjetEta = -999 ∧
    (enrichJet X L jecUnc isMC [] deltaRmax jet).HLTjetPhi = -999 ∧
    (enrichJet X L jecUnc isMC [] deltaRmax jet).HLTjetPt = -999 ∧
    (enrichJet X L jecUnc isMC [] deltaRmax jet).HLTjetE = -999 ∧
    (enrichJet X L jecUnc isMC [] deltaRmax jet).HLTjetDeltaR = -1 := by
  simp [enrichJet, triggerMatched, isMatchedWithTrigger, isMatchedWithTriggerFrom]

theorem produce_put_eq (X : CMath K) (L : P4Lib K) (cfg : Config K) (triggerBit : Int)
    (ev : Event K) (es : EventSetup K) (out : List (AnnotatedJet K))
    (h : (produce X L cfg triggerBit ev es).put = some out) :
    ∃ js u, ev.jets = some js ∧ es.hltInitOk = true ∧ es.jecUncertainty = some u ∧
      out = js.map (enrichJet X L u (!ev.isRealData) [] cfg.hlt2reco_deltaRmax) := by
  unfold produce at h
  simp only [getByLabel, jetLegObjects_eq_nil] at h
  cases hj : ev.jets with
  | none => simp [hj] at h
  | some js =>
    cases hi : es.hltInitOk with
    | false => simp [hj, hi] at h
    | true =>
      cases hu : es.jecUncertainty with
      | none => simp [hj, hi, hu] at h
      | some u =>
        simp only [hj, hi, hu, Bool.not_true, Bool.false_eq_true, if_false, Option.some.injEq]
          at h
        exact ⟨js, u, rfl, rfl, rfl, h.symm⟩

theorem produce_path_missing (X : CMath K) (L : P4Lib K) (cfg : Config K) (triggerBit : Int)
    (ev : Event K) (es : EventSetup K) (js : List (Jet K)) (u : K → K → K)
    (hinit : es.hltInitOk = true) (hchg : es.changedConfig = true)
    (hnone : ∀ n ∈ es.hltConfig.triggerNames, containsStr n cfg.hltPath = false)
    (hj : ev.jets = some js) (hu : es.jecUncertainty = some u) :
    produce X L cfg triggerBit ev es =
      { log := [LogRecord.info "HLTMenu" ("the current menu is " ++ es.hltConfig.tableName),
                LogRecord.error "NoHLTPath" "HLT path not found"]
        triggerBit := -1
        put := some (js.map (enrichJet X L u (!ev.isRealData) [] cfg.hlt2reco_deltaRmax))
        threw := false } := by
  unfold produce
  simp only [getByLabel, jetLegObjects_eq_nil, hj, hinit, hchg, hu,
    scanTriggerNames_no_match cfg.hltPath es.hltConfig.triggerNames 0 (-1, false) hnone]
  simp

theorem produce_path_missing_no_jec (X : CMath K) (L : P4Lib K) (cfg : Config K)
    (triggerBit : Int) (ev : Event K) (es : EventSetup K) (js : List (Jet K))
    (hinit : es.hltInitOk = true) (hchg : es.changedConfig = true)
    (hnone : ∀ n ∈ es.hltConfig.triggerNames, containsStr n cfg.hltPath = false)
    (hj : ev.jets = some js) (hu : es.jecUncertainty = none) :
    produce X L cfg triggerBit ev es =
      { log := [LogRecord.info "HLTMenu" ("the current menu is " ++ es.hltConfig.tableName),
                LogRecord.error "NoHLTPath" "HLT path not found"]
        triggerBit := -1
        put := none
        threw := true } := by
  unfold produce
  simp only [getByLabel, jetLegObjects_eq_nil, hj, hinit, hchg, hu,
    scanTriggerNames_no_match cfg.hltPath es.hltConfig.triggerNames 0 (-1, false) hnone]
  simp

end ProduceProofs

/-! ## The claims -/

section Claims

variable {K : Type} [LinearOrderedField K]

/-- C1: for every eta whose absolute value lies in one of the seven half-open bins, the
triple of `getResolutionRatio`, `getJERup` and `getJERdown` is that bin's row of the
table of the specification; adjacent rows share their boundary, exactly one row applies
to every eta with absolute value below 5, and the boundary value 0.8 belongs to the
upper bin. -/
theorem lookup_matches_spec_table (eta : K) :
    (0 ≤ |eta| ∧ |eta| < 0.8 → lookup eta = (1.061, 1.084, 1.038)) ∧
    (0.8 ≤ |eta| ∧ |eta| < 1.3 → lookup eta = (1.088, 1.117, 1.059)) ∧
    (1.3 ≤ |eta| ∧ |eta| < 1.9 → lookup eta = (1.106, 1.136, 1.076)) ∧
    (1.9 ≤ |eta| ∧ |eta| < 2.5 → lookup eta = (1.126, 1.220, 1.032)) ∧
    (2.5 ≤ |eta| ∧ |eta| < 3.0 → lookup eta = (1.343, 1.466, 1.220)) ∧
    (3.0 ≤ |eta| ∧ |eta| < 3.2 → lookup eta = (1.303, 1.414, 1.192)) ∧
    (3.2 ≤ |eta| ∧ |eta| < 5.0 → lookup eta = (1.320, 1.606, 1.034)) ∧
    (∀ r ∈ (specTable : List (ResolutionEntry K)), r.covers eta →
      lookup eta = (r.nominal, r.upVariant, r.downVariant)) ∧
    List.Chain' (fun r s : ResolutionEntry K => r.etaHigh = s.etaLow) specTable ∧
    (|eta| < 5.0 → ∃! r, r ∈ (specTable : List (ResolutionEntry K)) ∧ r.covers eta) ∧
    (|eta| = 0.8 → lookup eta = (1.088, 1.117, 1.059)) := by
  have hb := lookup_of_bin eta
  refine ⟨hb.1, hb.2.1, hb.2.2.1, hb.2.2.2.1, hb.2.2.2.2.1, hb.2.2.2.2.2.1,
    hb.2.2.2.2.2.2.1, fun r hr hc => lookup_of_row eta r hr hc, ?_, ?_, ?_⟩
  · simp [specTable]
  · intro h
    obtain ⟨r, hr, hc⟩ := covers_exists eta h
    exact ⟨r, ⟨hr, hc⟩, fun s hs => covers_unique eta s r hs.1 hr hs.2 hc⟩
  · intro h
    exact hb.2.1 ⟨le_of_eq h.symm, by rw [h]; norm_num⟩

/-- C1, at eta = -0.8: the absolute value is the lower boundary of the second bin and the
lookup gives the second row. -/
theorem lookup_matches_spec_table_witness :
    ((0.8 : ℚ) ≤ |(-0.8 : ℚ)| ∧ |(-0.8 : ℚ)| < 1.3) ∧
      lookup (-0.8 : ℚ) = (1.088, 1.117, 1.059) :=
  ⟨⟨by norm_num [abs_of_nonneg], by norm_num [abs_of_nonneg]⟩,
    (lookup_matches_spec_table (-0.8 : ℚ)).2.1
      ⟨by norm_num [abs_of_nonneg], by norm_num [abs_of_nonneg]⟩⟩

/-- C2: each of `getResolutionRatio`, `getJERup` and `getJERdown` returns the sentinel -1
exactly when eta >= 5 or eta <= -5, that is when the absolute value of eta is outside
[0, 5); in that case the lookup is (-1, -1, -1). -/
theorem sentinel_iff_out_of_range (eta : K) :
    (getResolutionRatio eta = -1 ↔ (5.0 ≤ eta ∨ eta ≤ -5.0)) ∧
    (getJERup eta = -1 ↔ (5.0 ≤ eta ∨ eta ≤ -5.0)) ∧
    (getJERdown eta = -1 ↔ (5.0 ≤ eta ∨ eta ≤ -5.0)) ∧
    (lookup eta = (-1, -1, -1) ↔ ¬ |eta| < 5.0) := by
  have hout : (5.0 ≤ eta ∨ eta ≤ -5.0) ↔ (5.0 : K) ≤ |eta| := by
    rw [le_abs']
    constructor
    · rintro (h | h)
      · exact Or.inr h
      · exact Or.inl h
    · rintro (h | h)
      · exact Or.inr h
      · exact Or.inl h
  have hsent : (5.0 : K) ≤ |eta| → lookup eta = (-1, -1, -1) := (lookup_of_bin eta).2.2.2.2.2.2.2
  have hin : |eta| < (5.0 : K) →
      getResolutionRatio eta ≠ -1 ∧ getJERup eta ≠ -1 ∧ getJERdown eta ≠ -1 := by
    intro h
    obtain ⟨r, hr, hc⟩ := covers_exists eta h
    have hl := lookup_of_row eta r hr hc
    simp only [lookup, Prod.mk.injEq] at hl
    rw [hl.1, hl.2.1, hl.2.2]
    rw [mem_specTable] at hr
    rcases hr with rfl | rfl | rfl | rfl | rfl | rfl | rfl <;> norm_num
  rw [hout]
  refine ⟨⟨?_, ?_⟩, ⟨?_, ?_⟩, ⟨?_, ?_⟩, ⟨?_, ?_⟩⟩
  · intro h
    by_contra hlt
    exact (hin (not_le.mp hlt)).1 h
  · intro h
    have := hsent h
    simp only [lookup, Prod.mk.injEq] at this
    exact this.1
  · intro h
    by_contra hlt
    exact (hin (not_le.mp hlt)).2.1 h
  · intro h
    have := hsent h
    simp only [lookup, Prod.mk.injEq] at this
    exact this.2.1
  · intro h
    by_contra hlt
    exact (hin (not_le.mp hlt)).2.2 h
  · intro h
    have := hsent h
    simp only [lookup, Prod.mk.injEq] at this
    exact this.2.2
  · intro h hlt
    simp only [lookup, Prod.mk.injEq] at h
    exact (hin hlt).1 h.1
  · intro h
    exact hsent (not_lt.mp h)

/-- C3: `isMatchedWithTrigger` returns true exactly when some trigger object has distance
strictly below `deltaRmax`; when it returns true, the reported index is the smallest
position whose object has distance below `deltaRmax` and the reported deltaR is the
distance of the object at that position. -/
theorem isMatchedWithTrigger_first_within (X : CMath K) (p : Jet K)
    (triggerObjects : List (TriggerObject K)) (index : Int) (deltaR deltaRmax : K) :
    ((isMatchedWithTrigger X p triggerObjects index deltaR deltaRmax).1 = true ↔
      ∃ t ∈ triggerObjects, matchDistance X t p < deltaRmax) ∧
    ((isMatchedWithTrigger X p triggerObjects index deltaR deltaRmax).1 = true →
      ∃ (i : Nat) (t : TriggerObject K), triggerObjects[i]? = some t ∧
        (isMatchedWithTrigger X p triggerObjects index deltaR deltaRmax).2.1 = (i : Int) ∧
        (isMatchedWithTrigger X p triggerObjects index deltaR deltaRmax).2.2 =
          matchDistance X t p ∧
        matchDistance X t p < deltaRmax ∧
        ∀ (j : Nat) (u : TriggerObject K), j < i → triggerObjects[j]? = some u →
          ¬ matchDistance X u p < deltaRmax) := by
  refine ⟨isMatchedWithTrigger_true_iff X p triggerObjects index deltaR deltaRmax, ?_⟩
  intro h
  obtain ⟨pre, t, post, he, h1, h2⟩ := exists_first_within X p deltaRmax triggerObjects
    ((isMatchedWithTrigger_true_iff X p triggerObjects index deltaR deltaRmax).mp h)
  have hr : isMatchedWithTrigger X p triggerObjects index deltaR deltaRmax =
      (true, ((0 + pre.length : Nat) : Int), matchDistance X t p) := by
    rw [isMatchedWithTrigger, he]
    exact isMatchedWithTriggerFrom_split X p deltaRmax pre t post 0 index deltaR h2 h1
  refine ⟨pre.length, t, ?_, ?_, ?_, h1, ?_⟩
  · rw [he, List.getElem?_append_right (le_refl _)]
    simp
  · rw [hr]
    simp
  · rw [hr]
  · intro j u hj hu
    rw [he, List.getElem?_append_left hj] at hu
    exact h2 u (List.getElem?_mem hu)

/-- C3, at `centralJet`, `threeLegs` and deltaRmax = 0.2: the first object is too far, the
second is within reach, and the matcher reports a position, although the third object is
closer. -/
theorem isMatchedWithTrigger_first_within_witness :
    (isMatchedWithTrigger realCMath centralJet threeLegs (-1) (-1) 0.2).1 = true ∧
    ∃ (i : Nat) (t : TriggerObject ℝ), threeLegs[i]? = some t ∧
      (isMatchedWithTrigger realCMath centralJet threeLegs (-1) (-1) 0.2).2.1 = (i : Int) ∧
      (isMatchedWithTrigger realCMath centralJet threeLegs (-1) (-1) 0.2).2.2 =
        matchDistance realCMath t centralJet ∧
      matchDistance realCMath t centralJet < 0.2 ∧
      ∀ (j : Nat) (u : TriggerObject ℝ), j < i → threeLegs[j]? = some u →
        ¬ matchDistance realCMath u centralJet < 0.2 :=
  have hm : (isMatchedWithTrigger realCMath centralJet threeLegs (-1) (-1) 0.2).1 = true :=
    (isMatchedWithTrigger_first_within realCMath centralJet threeLegs (-1) (-1) 0.2).1.mpr
      ⟨⟨0.1, 0, 90, 90.5⟩, by simp [threeLegs], by
        rw [matchDistance_same_phi _ _ rfl]
        norm_num [centralJet, abs_of_nonneg]⟩
  ⟨hm, (isMatchedWithTrigger_first_within realCMath centralJet threeLegs (-1) (-1) 0.2).2 hm⟩

/-- The matcher at `centralJet`, `threeLegs` and deltaRmax = 0.2 returns position 1 and
distance 0.1; the object at position 2, at distance 0, is not looked at. -/
theorem isMatchedWithTrigger_threeLegs :
    isMatchedWithTrigger realCMath centralJet threeLegs (-1) (-1) 0.2 = (true, 1, 0.1) := by
  have hd0 : matchDistance realCMath ⟨3, 0, 40, 400⟩ centralJet = 3 := by
    rw [matchDistance_same_phi _ _ rfl]
    norm_num [centralJet, abs_of_nonneg]
  have hd1 : matchDistance realCMath ⟨0.1, 0, 90, 90.5⟩ centralJet = 0.1 := by
    rw [matchDistance_same_phi _ _ rfl]
    norm_num [centralJet, abs_of_nonneg]
  have hsplit := isMatchedWithTriggerFrom_split realCMath centralJet 0.2
    [⟨3, 0, 40, 400⟩] ⟨0.1, 0, 90, 90.5⟩ [⟨0, 0, 100, 100⟩] 0 (-1) (-1)
    (by
      intro u hu
      rw [List.mem_singleton.mp hu, hd0]
      norm_num)
    (by rw [hd1]; norm_num)
  rw [hd1] at hsplit
  exact hsplit

/-- C7: when no trigger leg (the list may be empty) has distance strictly below the
maximum, the matcher reports not-matched and leaves index and distance as the caller
set them; the trigger-matched block of `produce` then has index -1 and deltaR -1, and
the output jet carries HLTjetDeltaR = -1, HLTjetEta = HLTjetPhi = HLTjetPt = HLTjetE =
-999 and the JER, JERup and JERdown of the jet's eta, which are 1.126, 1.220 and 1.032
at eta = 2.0. -/
theorem unmatched_jet_annotation (X : CMath K) (L : P4Lib K) (jecUnc : K → K → K)
    (isMC : Bool) (jet : Jet K) (JetLegObjects : List (TriggerObject K)) (deltaRmax : K)
    (h : ∀ t ∈ JetLegObjects, ¬ matchDistance X t jet < deltaRmax) :
    (∀ (index : Int) (deltaR : K),
      isMatchedWithTrigger X jet JetLegObjects index deltaR deltaRmax =
        (false, index, deltaR)) ∧
    (triggerMatched X jet JetLegObjects deltaRmax).isMatched2trigger = false ∧
    (triggerMatched X jet JetLegObjects deltaRmax).idx = -1 ∧
    (triggerMatched X jet JetLegObjects deltaRmax).deltaR = -1 ∧
    (enrichJet X L jecUnc isMC JetLegObjects deltaRmax jet).HLTjetDeltaR = -1 ∧
    (enrichJet X L jecUnc isMC JetLegObjects deltaRmax jet).HLTjetEta = -999 ∧
    (enrichJet X L jecUnc isMC JetLegObjects deltaRmax jet).HLTjetPhi = -999 ∧
    (enrichJet X L jecUnc isMC JetLegObjects deltaRmax jet).HLTjetPt = -999 ∧
    (enrichJet X L jecUnc isMC JetLegObjects deltaRmax jet).HLTjetE = -999 ∧
    (enrichJet X L jecUnc isMC JetLegObjects deltaRmax jet).JER = getResolutionRatio jet.eta ∧
    (enrichJet X L jecUnc isMC JetLegObjects deltaRmax jet).JERup = getJERup jet.eta ∧
    (enrichJet X L jecUnc isMC JetLegObjects deltaRmax jet).JERdown = getJERdown jet.eta ∧
    (jet.eta = 2.0 →
      (enrichJet X L jecUnc isMC JetLegObjects deltaRmax jet).JER = 1.126 ∧
      (enrichJet X L jecUnc isMC JetLegObjects deltaRmax jet).JERup = 1.220 ∧
      (enrichJet X L jecUnc isMC JetLegObjects deltaRmax jet).JERdown = 1.032) := by
  have hm : ∀ (index : Int) (deltaR : K),
      isMatchedWithTrigger X jet JetLegObjects index deltaR deltaRmax =
        (false, index, deltaR) :=
    fun index deltaR =>
      isMatchedWithTriggerFrom_none X jet deltaRmax JetLegObjects 0 index deltaR h
  have ht : triggerMatched X jet JetLegObjects deltaRmax =
      { isMatched2trigger := false, idx := -1, deltaR := -1, hltEta := -999, hltPhi := -999,
        hltPt := -999, hltE := -999 } := by
    simp [triggerMatched, hm]
  refine ⟨hm, by rw [ht], by rw [ht], by rw [ht], ?_, ?_, ?_, ?_, ?_, rfl, rfl, rfl, ?_⟩
  · simp only [enrichJet, ht]
  · simp only [enrichJet, ht]
  · simp only [enrichJet, ht]
  · simp only [enrichJet, ht]
  · simp only [enrichJet, ht]
  · intro he
    have hl := (lookup_of_bin jet.eta).2.2.2.1
      ⟨by rw [he]; norm_num [abs_of_nonneg], by rw [he]; norm_num [abs_of_nonneg]⟩
    simp only [lookup, Prod.mk.injEq] at hl
    exact ⟨hl.1, hl.2.1, hl.2.2⟩

/-- C7, at `forwardJet` (eta = 2.0) with one trigger leg at eta = 0, maximum distance 0.2:
the leg is at distance 2, and the jet is annotated with the unmatched values and the
fourth row of the table. -/
theorem unmatched_jet_annotation_witness :
    (∀ t ∈ [(⟨0, 0, 50, 50⟩ : TriggerObject ℝ)], ¬ matchDistance realCMath t forwardJet < 0.2) ∧
    (enrichJet realCMath realP4Lib (fun _ _ => 0.03) false [⟨0, 0, 50, 50⟩] 0.2
      forwardJet).HLTjetEta = -999 ∧
    (enrichJet realCMath realP4Lib (fun _ _ => 0.03) false [⟨0, 0, 50, 50⟩] 0.2
      forwardJet).HLTjetDeltaR = -1 ∧
    (enrichJet realCMath realP4Lib (fun _ _ => 0.03) false [⟨0, 0, 50, 50⟩] 0.2
      forwardJet).JER = 1.126 :=
  have hfar : ∀ t ∈ [(⟨0, 0, 50, 50⟩ : TriggerObject ℝ)],
      ¬ matchDistance realCMath t forwardJet < 0.2 := by
    intro t ht
    rw [List.mem_singleton.mp ht, matchDistance_same_phi _ _ rfl]
    norm_num [forwardJet, abs_of_nonneg]
  have hall := unmatched_jet_annotation realCMath realP4Lib (fun _ _ => 0.03) false forwardJet
    [⟨0, 0, 50, 50⟩] 0.2 hfar
  ⟨hfar, hall.2.2.2.2.2.1, hall.2.2.2.2.1, (hall.2.2.2.2.2.2.2.2.2.2.2.2 rfl).1⟩

/-- C8: over the reals the distance used by the matcher is sqrt(dEta^2 + c^2) with
c = arccos(cos(phi_candidate - phi_jet)); c is the least of the values
|phi_candidate - phi_jet - 2 pi k| over the integers k and lies in [0, pi]; the distance
is unchanged when the two directions are exchanged and when either azimuth is shifted by
a multiple of 2 pi.  For the jet direction (0, -3.2), the candidates (0, 0) and (0, 3.0)
and maximum distance 0.5, the first candidate is at distance 2 pi - 3.2 > 0.5 and the
matcher returns index 1 with distance 2 pi - 6.2, which is between 0.083 and 0.084. -/
theorem matchDistance_circular (t : TriggerObject ℝ) (p : Jet ℝ) :
    matchDistance realCMath t p =
      Real.sqrt ((t.eta - p.eta) ^ 2 + (Real.arccos (Real.cos (t.phi - p.phi))) ^ 2) ∧
    (∃ k : ℤ, Real.arccos (Real.cos (t.phi - p.phi)) = |t.phi - p.phi - 2 * Real.pi * k|) ∧
    (∀ k : ℤ, Real.arccos (Real.cos (t.phi - p.phi)) ≤ |t.phi - p.phi - 2 * Real.pi * k|) ∧
    0 ≤ Real.arccos (Real.cos (t.phi - p.phi)) ∧
    Real.arccos (Real.cos (t.phi - p.phi)) ≤ Real.pi ∧
    matchDistance realCMath { t with eta := p.eta, phi := p.phi }
      { p with eta := t.eta, phi := t.phi } = matchDistance realCMath t p ∧
    (∀ k m : ℤ, matchDistance realCMath { t with phi := t.phi + 2 * Real.pi * k }
      { p with phi := p.phi + 2 * Real.pi * m } = matchDistance realCMath t p) ∧
    matchDistance realCMath ⟨0, 0, t.pt, t.energy⟩ { p with eta := 0, phi := -3.2 } =
      2 * Real.pi - 3.2 ∧
    0.5 < 2 * Real.pi - 3.2 ∧
    (∀ (index : Int) (deltaR : ℝ),
      isMatchedWithTrigger realCMath { p with eta := 0, phi := -3.2 }
        [⟨0, 0, t.pt, t.energy⟩, ⟨0, 3.0, t.pt, t.energy⟩] index deltaR 0.5 =
        (true, 1, 2 * Real.pi - 6.2)) ∧
    0.083 < 2 * Real.pi - 6.2 ∧ 2 * Real.pi - 6.2 < 0.084 := by
  have hpi1 := Real.pi_gt_d6
  have hpi2 := Real.pi_lt_d6
  have hd0 : matchDistance realCMath ⟨0, 0, t.pt, t.energy⟩ { p with eta := 0, phi := -3.2 } =
      2 * Real.pi - 3.2 := by
    rw [matchDistance_same_eta _ _ rfl]
    have h : (0 : ℝ) - (-3.2) = 3.2 := by norm_num
    simp only [h]
    exact arccos_cos_two_pi_sub _ (by linarith) (by linarith)
  have hd1 : matchDistance realCMath ⟨0, 3.0, t.pt, t.energy⟩ { p with eta := 0, phi := -3.2 } =
      2 * Real.pi - 6.2 := by
    rw [matchDistance_same_eta _ _ rfl]
    have h : (3.0 : ℝ) - (-3.2) = 6.2 := by norm_num
    simp only [h]
    exact arccos_cos_two_pi_sub _ (by linarith) (by linarith)
  refine ⟨rfl, arccos_cos_eq_abs _, arccos_cos_le_abs _, Real.arccos_nonneg _,
    Real.arccos_le_pi _, matchDistance_swap t p, matchDistance_shift t p, hd0, by linarith,
    ?_, by linarith, by linarith⟩
  intro index deltaR
  have hsplit := isMatchedWithTriggerFrom_split realCMath { p with eta := 0, phi := -3.2 } 0.5
    [⟨0, 0, t.pt, t.energy⟩] ⟨0, 3.0, t.pt, t.energy⟩ [] 0 index deltaR
    (by
      intro u hu
      rw [List.mem_singleton.mp hu, hd0]
      linarith)
    (by rw [hd1]; linarith)
  rw [hd1] at hsplit
  exact hsplit

/-- The trigger-matched block on a list it is given directly: for `centralJet`, `twoLegs`
and maximum distance 0.2 the matcher finds the match at position 1 with distance 0, and
the block yields the eta 3, pt 40 and energy 400 of the leg at position 0. -/
theorem triggerMatched_twoLegs :
    (triggerMatched realCMath centralJet twoLegs 0.2).isMatched2trigger = true ∧
    (triggerMatched realCMath centralJet twoLegs 0.2).idx = 1 ∧
    (triggerMatched realCMath centralJet twoLegs 0.2).deltaR = 0 ∧
    twoLegs[1]? = some ⟨0, 0, 100, 100⟩ ∧
    matchDistance realCMath ⟨0, 0, 100, 100⟩ centralJet = 0 ∧
    twoLegs[0]? = some ⟨3, 0, 40, 400⟩ ∧
    matchDistance realCMath ⟨3, 0, 40, 400⟩ centralJet = 3 ∧
    (triggerMatched realCMath centralJet twoLegs 0.2).hltEta = 3 ∧
    (triggerMatched realCMath centralJet twoLegs 0.2).hltPhi = 0 ∧
    (triggerMatched realCMath centralJet twoLegs 0.2).hltPt = 40 ∧
    (triggerMatched realCMath centralJet twoLegs 0.2).hltE = 400 ∧
    (enrichJet realCMath realP4Lib (fun _ _ => 0) false twoLegs 0.2 centralJet).HLTjetEta = 3 ∧
    (enrichJet realCMath realP4Lib (fun _ _ => 0) false twoLegs 0.2 centralJet).HLTjetPt = 40 ∧
    (enrichJet realCMath realP4Lib (fun _ _ => 0) false twoLegs 0.2 centralJet).HLTjetE = 400 := by
  have hd0 : matchDistance realCMath ⟨3, 0, 40, 400⟩ centralJet = 3 := by
    rw [matchDistance_same_phi _ _ rfl]
    norm_num [centralJet, abs_of_nonneg]
  have hd1 : matchDistance realCMath ⟨0, 0, 100, 100⟩ centralJet = 0 := by
    rw [matchDistance_same_phi _ _ rfl]
    norm_num [centralJet]
  have hm : isMatchedWithTrigger realCMath centralJet twoLegs (-1) (-1) 0.2 = (true, 1, 0) := by
    have hsplit := isMatchedWithTriggerFrom_split realCMath centralJet 0.2
      [⟨3, 0, 40, 400⟩] ⟨0, 0, 100, 100⟩ [] 0 (-1) (-1)
      (by
        intro u hu
        rw [List.mem_singleton.mp hu, hd0]
        norm_num)
      (by rw [hd1]; norm_num)
    rw [hd1] at hsplit
    exact hsplit
  have ht : triggerMatched realCMath centralJet twoLegs 0.2 =
      { isMatched2trigger := true, idx := 1, deltaR := 0, hltEta := 3, hltPhi := 0,
        hltPt := 40, hltE := 400 } := by
    simp only [triggerMatched, hm]
    simp [legZero, twoLegs]
  refine ⟨by rw [ht], by rw [ht], by rw [ht], rfl, hd1, rfl, hd0, by rw [ht], by rw [ht],
    by rw [ht], by rw [ht], ?_, ?_, ?_⟩
  · simp only [enrichJet, ht]
  · simp only [enrichJet, ht]
  · simp only [enrichJet, ht]

/-- C5 fails on the code for a simulated jet without true jet: the smeared four-momentum
of `unmatchedJetA` and of `unmatchedJetB` is the value `smearedP4` has when declared,
whatever that value is, so it is not the measured four-momentum of both; with the
all-zero value it is (0, 0, 0, 0) and not the measured (3, 0, 0, 5).  For input that is
not simulated the measured four-momentum is passed through. -/
theorem smearedP4_without_genJet (p4Default : LorentzVector ℚ) :
    unmatchedJetA.genJet = none ∧ unmatchedJetB.genJet = none ∧
    smearedP4 p4Default true unmatchedJetA = p4Default ∧
    smearedP4 p4Default true unmatchedJetB = p4Default ∧
    (smearedP4 p4Default true unmatchedJetA ≠ unmatchedJetA.p4 ∨
      smearedP4 p4Default true unmatchedJetB ≠ unmatchedJetB.p4) ∧
    smearedP4 ⟨0, 0, 0, 0⟩ true unmatchedJetA = ⟨0, 0, 0, 0⟩ ∧
    unmatchedJetA.p4 = ⟨3, 0, 0, 5⟩ ∧
    (∀ (X : CMath ℚ) (p4Eta p4Phi p4Pt : LorentzVector ℚ → ℚ) (jecUnc : ℚ → ℚ → ℚ)
      (legs : List (TriggerObject ℚ)) (deltaRmax : ℚ),
      (enrichJet X ⟨⟨0, 0, 0, 0⟩, p4Eta, p4Phi, p4Pt⟩ jecUnc true legs deltaRmax
        unmatchedJetA).SmearedE = 0 ∧
      unmatchedJetA.energy = 5) ∧
    smearedP4 p4Default false unmatchedJetA = unmatchedJetA.p4 := by
  have hA : smearedP4 p4Default true unmatchedJetA = p4Default := rfl
  have hB : smearedP4 p4Default true unmatchedJetB = p4Default := rfl
  refine ⟨rfl, rfl, hA, hB, ?_, rfl, rfl, ?_, rfl⟩
  swap
  · intro X p4Eta p4Phi p4Pt jecUnc legs deltaRmax
    exact ⟨rfl, rfl⟩
  rw [hA, hB]
  by_cases h : p4Default = unmatchedJetA.p4
  · right
    rw [h]
    decide
  · exact Or.inl h

/-- C6: for a simulated jet with true four-momentum t and measured four-momentum m the
smeared four-momentum is t + f (m - t) in every component, with f the value of
`getResolutionRatio` at the jet's eta; when the eta is out of the table's range the
factor is -1 and the result is 2 t - m; with the factor 1 the three statements give m. -/
theorem smearedP4_with_genJet (p4Default : LorentzVector K) (jet : Jet K)
    (t : LorentzVector K) (h : jet.genJet = some t) :
    smearedP4 p4Default true jet =
      ⟨t.px + getResolutionRatio jet.eta * (jet.p4.px - t.px),
       t.py + getResolutionRatio jet.eta * (jet.p4.py - t.py),
       t.pz + getResolutionRatio jet.eta * (jet.p4.pz - t.pz),
       t.e + getResolutionRatio jet.eta * (jet.p4.e - t.e)⟩ ∧
    (¬ |jet.eta| < 5.0 →
      smearedP4 p4Default true jet =
        ⟨2 * t.px - jet.p4.px, 2 * t.py - jet.p4.py, 2 * t.pz - jet.p4.pz,
         2 * t.e - jet.p4.e⟩) ∧
    applySmearFactor 1 jet.p4 t = jet.p4 := by
  have hs : smearedP4 p4Default true jet =
      applySmearFactor (getResolutionRatio jet.eta) jet.p4 t := by
    simp [smearedP4, h]
  refine ⟨?_, ?_, ?_⟩
  · rw [hs]
    simp only [applySmearFactor, LorentzVector.add, LorentzVector.sub, LorentzVector.scale,
      LorentzVector.mk.injEq]
    refine ⟨?_, ?_, ?_, ?_⟩ <;> ring
  · intro hout
    have hf : getResolutionRatio jet.eta = -1 := by
      have hl := (lookup_of_bin jet.eta).2.2.2.2.2.2.2 (not_lt.mp hout)
      simp only [lookup, Prod.mk.injEq] at hl
      exact hl.1
    rw [hs, hf]
    simp only [applySmearFactor, LorentzVector.add, LorentzVector.sub, LorentzVector.scale,
      LorentzVector.mk.injEq]
    refine ⟨?_, ?_, ?_, ?_⟩ <;> ring
  · cases hp : jet.p4
    simp only [applySmearFactor, LorentzVector.add, LorentzVector.sub, LorentzVector.scale,
      LorentzVector.mk.injEq]
    refine ⟨?_, ?_, ?_, ?_⟩ <;> ring

/-- C6, at `matchedJet`: eta = 0 gives the factor 1.061, and the smeared four-momentum is
(1, 0, 0, 1) + 1.061 ((2, 0, 0, 2) - (1, 0, 0, 1)) = (2.061, 0, 0, 2.061). -/
theorem smearedP4_with_genJet_witness :
    matchedJet.genJet = some ⟨1, 0, 0, 1⟩ ∧
    smearedP4 ⟨0, 0, 0, 0⟩ true matchedJet = ⟨2.061, 0, 0, 2.061⟩ :=
  ⟨rfl, by
    rw [(smearedP4_with_genJet ⟨0, 0, 0, 0⟩ matchedJet ⟨1, 0, 0, 1⟩ rfl).1]
    norm_num [matchedJet, getResolutionRatio]⟩

/-- C9 fails on the code: with `jetConfig`, `muonSetup` (the configuration initialises and
has changed, and no trigger name contains the configured path) and `jetEvent`, `produce`
leaves triggerBit at -1, logs the error and still puts the output collection, with one
annotated jet, into the event. -/
theorem produce_puts_output_when_path_missing :
    muonSetup.hltInitOk = true ∧ muonSetup.changedConfig = true ∧
    (∀ n ∈ muonSetup.hltConfig.triggerNames, containsStr n jetConfig.hltPath = false) ∧
    (produce realCMath realP4Lib jetConfig 0 jetEvent muonSetup).triggerBit = -1 ∧
    LogRecord.error "NoHLTPath" "HLT path not found" ∈
      (produce realCMath realP4Lib jetConfig 0 jetEvent muonSetup).log ∧
    (produce realCMath realP4Lib jetConfig 0 jetEvent muonSetup).threw = false ∧
    (produce realCMath realP4Lib jetConfig 0 jetEvent muonSetup).put =
      some [enrichJet realCMath realP4Lib (fun _ _ => 0.03) false [] 0.2 centralJet] ∧
    (produce realCMath realP4Lib jetConfig 0 jetEvent muonSetup).put ≠ none := by
  have hnone : ∀ n ∈ muonSetup.hltConfig.triggerNames,
      containsStr n jetConfig.hltPath = false := by
    intro n hn
    simp only [muonSetup, muonMenu, List.mem_cons, List.mem_singleton, List.not_mem_nil,
      or_false] at hn
    rcases hn with rfl | rfl <;> rfl
  have hp := produce_path_missing realCMath realP4Lib jetConfig 0 jetEvent muonSetup
    [centralJet] (fun _ _ => 0.03) rfl rfl hnone rfl rfl
  rw [hp]
  refine ⟨rfl, rfl, hnone, rfl, by simp, rfl, rfl, by simp⟩

/-- C9 as amended: when the jet collection is present, the trigger configuration
initialises and has changed, and no trigger name contains the configured path, `produce`
sets triggerBit to -1, logs the error "HLT path not found" and continues past the trigger
section, whether or not the calibration record is present; when the calibration record
is present it returns normally after putting into the event the output collection, which
holds the annotation of every input jet, in order, computed with an empty list of
trigger legs; when the calibration record is absent the call ends with an exception and
nothing is put. -/
theorem produce_continues_when_path_missing (X : CMath K) (L : P4Lib K) (cfg : Config K)
    (triggerBit : Int) (ev : Event K) (es : EventSetup K) (js : List (Jet K))
    (hinit : es.hltInitOk = true) (hchg : es.changedConfig = true)
    (hnone : ∀ n ∈ es.hltConfig.triggerNames, containsStr n cfg.hltPath = false)
    (hj : ev.jets = some js) :
    (produce X L cfg triggerBit ev es).triggerBit = -1 ∧
    LogRecord.error "NoHLTPath" "HLT path not found" ∈ (produce X L cfg triggerBit ev es).log ∧
    (∀ u, es.jecUncertainty = some u →
      (produce X L cfg triggerBit ev es).threw = false ∧
      (produce X L cfg triggerBit ev es).put =
        some (js.map (enrichJet X L u (!ev.isRealData) [] cfg.hlt2reco_deltaRmax)) ∧
      ((produce X L cfg triggerBit ev es).put.map List.length) = some js.length) ∧
    (es.jecUncertainty = none →
      (produce X L cfg triggerBit ev es).threw = true ∧
      (produce X L cfg triggerBit ev es).put = none) := by
  cases hu : es.jecUncertainty with
  | none =>
    rw [produce_path_missing_no_jec X L cfg triggerBit ev es js hinit hchg hnone hj hu]
    refine ⟨rfl, by simp, ?_, fun _ => ⟨rfl, rfl⟩⟩
    intro u h
    cases h
  | some v =>
    rw [produce_path_missing X L cfg triggerBit ev es js v hinit hchg hnone hj hu]
    refine ⟨rfl, by simp, ?_, ?_⟩
    · intro u h
      cases h
      exact ⟨rfl, rfl, by simp⟩
    · intro h
      cases h

/-- C9 as amended, at `jetConfig` and `jetEvent`: with `muonSetup` the hypotheses hold,
triggerBit is -1 and the output collection has one jet; with `muonSetupNoJec`, which
lacks the calibration record, triggerBit is -1, the error is logged and nothing is put. -/
theorem produce_continues_when_path_missing_witness :
    (muonSetup.hltInitOk = true ∧ muonSetup.changedConfig = true ∧
      (∀ n ∈ muonSetup.hltConfig.triggerNames, containsStr n jetConfig.hltPath = false) ∧
      jetEvent.jets = some [centralJet] ∧
      muonSetup.jecUncertainty = some (fun _ _ => 0.03)) ∧
    (produce realCMath realP4Lib jetConfig 0 jetEvent muonSetup).triggerBit = -1 ∧
    ((produce realCMath realP4Lib jetConfig 0 jetEvent muonSetup).put.map List.length) =
      some 1 ∧
    (muonSetupNoJec.hltInitOk = true ∧ muonSetupNoJec.changedConfig = true ∧
      (∀ n ∈ muonSetupNoJec.hltConfig.triggerNames,
        containsStr n jetConfig.hltPath = false) ∧
      muonSetupNoJec.jecUncertainty = none) ∧
    (produce realCMath realP4Lib jetConfig 0 jetEvent muonSetupNoJec).triggerBit = -1 ∧
    LogRecord.error "NoHLTPath" "HLT path not found" ∈
      (produce realCMath realP4Lib jetConfig 0 jetEvent muonSetupNoJec).log ∧
    (produce realCMath realP4Lib jetConfig 0 jetEvent muonSetupNoJec).put = none :=
  have hnone : ∀ n ∈ muonMenu.triggerNames, containsStr n jetConfig.hltPath = false := by
    intro n hn
    simp only [muonMenu, List.mem_cons, List.mem_singleton, List.not_mem_nil,
      or_false] at hn
    rcases hn with rfl | rfl <;> rfl
  have hall := produce_continues_when_path_missing realCMath realP4Lib jetConfig 0 jetEvent
    muonSetup [centralJet] rfl rfl hnone rfl
  have habs := produce_continues_when_path_missing realCMath realP4Lib jetConfig 0 jetEvent
    muonSetupNoJec [centralJet] rfl rfl hnone rfl
  ⟨⟨rfl, rfl, hnone, rfl, rfl⟩, hall.1, (hall.2.2.1 (fun _ _ => 0.03) rfl).2.2,
    ⟨rfl, rfl, hnone, rfl⟩, habs.1, habs.2.1, (habs.2.2.2 rfl).2⟩

/-- C10: in `produce` the handle of the trigger summary is tested while it is still
default-constructed, hence not valid, so the trigger-matching block is skipped: whatever
the event holds and whether or not the path was found, the list of trigger legs is empty,
and every jet of the output collection carries HLTjetEta = HLTjetPhi = HLTjetPt =
HLTjetE = -999 and HLTjetDeltaR = -1. -/
theorem trigger_legs_always_empty (X : CMath K) (L : P4Lib K) (cfg : Config K)
    (triggerBit : Int) (ev : Event K) (es : EventSetup K) :
    (Handle.fresh : Handle (TriggerEvent K)).isValid = false ∧
    (∀ (triggerResults : Handle TriggerResults) (pathFound : Bool),
      jetLegObjects cfg ev es.hltConfig triggerResults pathFound = some []) ∧
    (∀ out, (produce X L cfg triggerBit ev es).put = some out →
      ∀ a ∈ out, a.HLTjetEta = -999 ∧ a.HLTjetPhi = -999 ∧ a.HLTjetPt = -999 ∧
        a.HLTjetE = -999 ∧ a.HLTjetDeltaR = -1) := by
  refine ⟨rfl, fun tr pf => jetLegObjects_eq_nil cfg ev es.hltConfig tr pf, ?_⟩
  intro out hout a ha
  obtain ⟨js, u, _, _, _, he⟩ := produce_put_eq X L cfg triggerBit ev es out hout
  rw [he] at ha
  obtain ⟨jet, _, rfl⟩ := List.mem_map.mp ha
  exact enrichJet_nil X L u (!ev.isRealData) cfg.hlt2reco_deltaRmax jet

/-- C10, at `jetConfig`, `jetEvent` and `jetSetup`: the path is found and the trigger
summary holds a leg at distance 0 from the jet, which the guarded block would collect if
it ran on the fetched handle; the output collection is put and its jet carries the
unmatched values. -/
theorem trigger_legs_always_empty_witness :
    scanTriggerNames jetConfig.hltPath jetSetup.hltConfig.triggerNames 0 (-1, false) =
      (0, true) ∧
    collectJetLegObjects jetConfig jetSetup.hltConfig (getByLabel jetEvent.triggerResults)
      (getByLabel jetEvent.triggerSummary) true = some [⟨0, 0, 100, 100⟩] ∧
    (produce realCMath realP4Lib jetConfig 0 jetEvent jetSetup).put =
      some [enrichJet realCMath realP4Lib (fun _ _ => 0.03) false [] 0.2 centralJet] ∧
    ∀ a ∈ [enrichJet realCMath realP4Lib (fun _ _ => 0.03) false [] 0.2 centralJet],
      a.HLTjetEta = -999 ∧ a.HLTjetPhi = -999 ∧ a.HLTjetPt = -999 ∧ a.HLTjetE = -999 ∧
        a.HLTjetDeltaR = -1 :=
  ⟨rfl, rfl, rfl,
    (trigger_legs_always_empty realCMath realP4Lib jetConfig 0 jetEvent jetSetup).2.2
      [enrichJet realCMath realP4Lib (fun _ _ => 0.03) false [] 0.2 centralJet] rfl⟩

end Claims

end JetUserData
